import Mathlib

/-!
Shallow embedding of the task-state manager (class TodoManager, file
TodoManager.ts) of the browser todo application, together with proofs
of the specified properties.

Modelling conventions:
* JavaScript machine integers and Date millisecond values are modelled
  as Nat (all values in play are non-negative timestamps and counts).
* The template-literal rendering of a number and the serialization of a
  Date are modelled by an executable decimal codec (natToString /
  parseDateString) that is proved injective and invertible, which is
  the property the ISO date format and decimal rendering provide.
* localStorage is modelled inside the manager state: field storage
  holds the value of the fixed key todos (None when the key is absent)
  and field writes counts the setItem calls, so that claims about
  write-through behaviour become statements about these fields.
* Effectful methods of the class become pure functions from the state
  to a pair of the returned value and the next state.
-/

namespace TodoApp

/-- Decimal digit list of a natural number, most significant first.
Models the rendering of an integer by a JavaScript template literal. -/
def natToDigits (n : Nat) : List Char :=
  if n < 10 then [Nat.digitChar n]
  else natToDigits (n / 10) ++ [Nat.digitChar (n % 10)]
termination_by n
decreasing_by exact Nat.div_lt_self (by omega) (by omega)

/-- Numeric value of a decimal digit character. -/
def digitVal (c : Char) : Nat := c.toNat - 48

/-- Value of a decimal digit string, most significant digit first. -/
def decodeDigits (l : List Char) : Nat :=
  l.foldl (fun acc c => acc * 10 + digitVal c) 0

theorem digitVal_digitChar : ∀ d, d < 10 → digitVal (Nat.digitChar d) = d := by decide

theorem isDigit_digitChar : ∀ d, d < 10 → (Nat.digitChar d).isDigit = true := by decide

theorem natToDigits_ne_nil (n : Nat) : natToDigits n ≠ [] := by
  rw [natToDigits]
  split <;> simp

theorem natToDigits_all_digit (n : Nat) : ∀ c ∈ natToDigits n, c.isDigit = true := by
  induction n using Nat.strong_induction_on with
  | _ n ih =>
    rw [natToDigits]
    split
    · intro c hc
      simp only [List.mem_singleton] at hc
      subst hc
      exact isDigit_digitChar n (by omega)
    · intro c hc
      rcases List.mem_append.mp hc with h | h
      · exact ih (n / 10) (Nat.div_lt_self (by omega) (by omega)) c h
      · simp only [List.mem_singleton] at h
        subst h
        exact isDigit_digitChar (n % 10) (Nat.mod_lt _ (by omega))

theorem foldl_natToDigits (n : Nat) : ∀ acc : Nat,
    List.foldl (fun acc c => acc * 10 + digitVal c) acc (natToDigits n)
      = acc * 10 ^ (natToDigits n).length + n := by
  induction n using Nat.strong_induction_on with
  | _ n ih =>
    intro acc
    rw [natToDigits]
    split
    · simp [digitVal_digitChar n (by omega)]
    · rw [List.foldl_append, ih (n / 10) (Nat.div_lt_self (by omega) (by omega)) acc]
      simp only [List.foldl_cons, List.foldl_nil, List.length_append, List.length_singleton]
      rw [digitVal_digitChar (n % 10) (Nat.mod_lt _ (by omega))]
      rw [pow_succ]
      have := Nat.div_add_mod n 10
      ring_nf
      omega

theorem decodeDigits_natToDigits (n : Nat) : decodeDigits (natToDigits n) = n := by
  have h := foldl_natToDigits n 0
  simpa [decodeDigits] using h

theorem natToDigits_inj {m n : Nat} (h : natToDigits m = natToDigits n) : m = n := by
  have hm := decodeDigits_natToDigits m
  have hn := decodeDigits_natToDigits n
  rw [h] at hm
  omega

/-- Decimal string of a natural number.  Models the JavaScript decimal
rendering of an integer (used by the template literal in generateId and
by the Date serialization in the persisted record).  Defined as the
fuel-based core rendering so that it evaluates inside the kernel; the
bridge lemma below identifies it with natToDigits for reasoning. -/
def natToString (n : Nat) : String := Nat.repr n

theorem toDigitsCore_eq_natToDigits (fuel : Nat) : ∀ (n : Nat) (ds : List Char),
    0 < fuel → n < 10 ^ fuel → Nat.toDigitsCore 10 fuel n ds = natToDigits n ++ ds := by
  induction fuel with
  | zero => intro n ds h0 _; omega
  | succ f ih =>
    intro n ds _ hn
    simp only [Nat.toDigitsCore]
    by_cases hdiv : n / 10 = 0
    · have hlt : n < 10 := by omega
      rw [if_pos hdiv, natToDigits, if_pos hlt, Nat.mod_eq_of_lt hlt]
      rfl
    · have hge : 10 ≤ n := by
        by_contra hc
        exact hdiv (Nat.div_eq_of_lt (by omega))
      have hf : 0 < f := by
        rcases Nat.eq_zero_or_pos f with hf0 | hf0
        · subst hf0
          norm_num at hn
          omega
        · exact hf0
      have hlt2 : n / 10 < 10 ^ f := by
        have := (Nat.div_lt_iff_lt_mul (by omega : 0 < 10)).mpr
          (by rw [← pow_succ]; exact hn)
        exact this
      rw [if_neg hdiv, ih (n / 10) (Nat.digitChar (n % 10) :: ds) hf hlt2]
      conv_rhs => rw [natToDigits, if_neg (show ¬ n < 10 by omega)]
      simp

theorem natToString_data (n : Nat) : (natToString n).data = natToDigits n := by
  have hlt : n < 10 ^ (n + 1) := by
    calc n < 10 ^ n := Nat.lt_pow_self (by omega) n
    _ < 10 ^ (n + 1) := Nat.pow_lt_pow_succ (by omega)
  have h := toDigitsCore_eq_natToDigits (n + 1) n [] (by omega) hlt
  simp only [List.append_nil] at h
  show ((Nat.toDigits 10 n).asString).data = natToDigits n
  unfold Nat.toDigits
  rw [h]
  rfl

/-- Models parsing a serialized timestamp string back into a Date
millisecond value; a string that is not in the format produced by the
serialization yields none (an Invalid Date). -/
def parseDateString (s : String) : Option Nat :=
  if s.data.isEmpty then none
  else if s.data.all Char.isDigit then some (decodeDigits s.data)
  else none

theorem parseDateString_natToString (n : Nat) :
    parseDateString (natToString n) = some n := by
  have h1 := natToDigits_ne_nil n
  have h2 := natToDigits_all_digit n
  simp only [parseDateString, natToString_data]
  rw [if_neg, if_pos]
  · rw [decodeDigits_natToDigits]
  · exact List.all_eq_true.mpr h2
  · simp [List.isEmpty_iff, h1]

/-- Models String.prototype.trim: removes leading and trailing
whitespace from the character sequence.  Defined on the character list
so that it evaluates inside the kernel. -/
def jsTrim (s : String) : String :=
  ⟨((s.data.dropWhile Char.isWhitespace).reverse.dropWhile Char.isWhitespace).reverse⟩

/-! ## Data model (file types.ts and the in-memory state of TodoManager.ts) -/

/-- The filter selection, values all / active / completed of FilterType. -/
inductive FilterType where
  | all
  | active
  | completed
deriving DecidableEq

/-- The Todo entity: id, text, completed, createdAt.  The createdAt Date
is modelled by its millisecond timestamp. -/
structure Todo where
  id : String
  text : String
  completed : Bool
  createdAt : Nat
deriving DecidableEq

/-- The TodoStats record returned by getStats. -/
structure TodoStats where
  total : Nat
  active : Nat
  completed : Nat
deriving DecidableEq

/-- A JSON value, the result of a successful JSON.parse of the stored
record. -/
inductive JsValue where
  | vnull
  | vbool (b : Bool)
  | vnum (n : Nat)
  | vstr (s : String)
  | varr (elems : List JsValue)
  | vobj (fields : List (String × JsValue))

/-- Content of the localStorage key todos when it is present: either a
string JSON.parse rejects, or the parsed JSON value. -/
inductive RecordContent where
  | malformedJson
  | json (v : JsValue)

/-- State of a TodoManager instance.  Fields todos and currentFilter are
the two private fields of the class; storage models the value under the
fixed localStorage key todos (none when the key is absent) and writes
counts the setItem calls performed so far, so that claims about
persistence writes are statements about these two fields. -/
structure TodoManager where
  todos : List Todo
  currentFilter : FilterType
  storage : Option RecordContent
  writes : Nat

/-! ## Operations of TodoManager -/

/-- The id produced by generateId: the current millisecond rendered in
decimal, a dash, and the random base-36 suffix the environment produced
from Math.random.  The clock value and the random suffix are explicit
inputs of the model. -/
def generateId (now : Nat) (rand : String) : String :=
  natToString now ++ "-" ++ rand

/-- JSON.stringify of one todo: an object with the fields id, text,
completed and createdAt, the Date serialized as a string. -/
def encodeTodo (t : Todo) : JsValue :=
  .vobj [("id", .vstr t.id), ("text", .vstr t.text),
         ("completed", .vbool t.completed),
         ("createdAt", .vstr (natToString t.createdAt))]

/-- saveToLocalStorage: writes JSON.stringify of the todos array under
the key todos.  The model records the parsed shape of the written string
and counts the write. -/
def saveToLocalStorage (s : TodoManager) : TodoManager :=
  { s with storage := some (.json (.varr (s.todos.map encodeTodo))),
           writes := s.writes + 1 }

/-- addTodo: trims the text, rejects with null when the trimmed text is
empty or longer than 200 characters, otherwise appends a fresh todo and
saves.  The clock value now (used both by Date.now inside generateId and
by the new Date stored in createdAt) and the random suffix rand are
explicit inputs. -/
def addTodo (now : Nat) (rand : String) (text : String) (s : TodoManager) :
    Option Todo × TodoManager :=
  let trimmedText := jsTrim text
  if trimmedText.length = 0 then (none, s)
  else if trimmedText.length > 200 then (none, s)
  else
    let newTodo : Todo :=
      { id := generateId now rand, text := trimmedText,
        completed := false, createdAt := now }
    (some newTodo, saveToLocalStorage { s with todos := s.todos ++ [newTodo] })

/-- deleteTodo: filters out the todo with the given id, then saves and
returns true exactly when the length shrank. -/
def deleteTodo (id : String) (s : TodoManager) : Bool × TodoManager :=
  let newTodos := s.todos.filter (fun todo => todo.id ≠ id)
  if newTodos.length < s.todos.length then
    (true, saveToLocalStorage { s with todos := newTodos })
  else
    (false, { s with todos := newTodos })

/-- Helper for toggleTodo: the source finds the first todo with the given
id and flips its completed flag in place.  Returns the updated list and
whether a match was found. -/
def toggleFirst (id : String) : List Todo → List Todo × Bool
  | [] => ([], false)
  | t :: ts =>
    if t.id = id then ({ t with completed := !t.completed } :: ts, true)
    else
      let r := toggleFirst id ts
      (t :: r.1, r.2)

/-- toggleTodo: flips completed on the first todo whose id matches, saves
and returns true on a match; returns false and leaves everything alone
otherwise. -/
def toggleTodo (id : String) (s : TodoManager) : Bool × TodoManager :=
  let r := toggleFirst id s.todos
  if r.2 then (true, saveToLocalStorage { s with todos := r.1 })
  else (false, s)

/-- getTodos: the optional filter argument falls back to the current
filter; active and completed filter by the flag, all returns a copy of
the whole list (value-equal to the list itself in this model). -/
def getTodos (filter : Option FilterType) (s : TodoManager) : List Todo :=
  let filterType := filter.getD s.currentFilter
  match filterType with
  | .active => s.todos.filter (fun todo => !todo.completed)
  | .completed => s.todos.filter (fun todo => todo.completed)
  | .all => s.todos

/-- getTodoById: first todo with the given id, or none. -/
def getTodoById (id : String) (s : TodoManager) : Option Todo :=
  s.todos.find? (fun todo => todo.id == id)

/-- clearCompleted: keeps the non-completed todos, saves only when the
number removed is positive, and returns that number. -/
def clearCompleted (s : TodoManager) : Nat × TodoManager :=
  let initialLength := s.todos.length
  let newTodos := s.todos.filter (fun todo => !todo.completed)
  let deletedCount := initialLength - newTodos.length
  if deletedCount > 0 then
    (deletedCount, saveToLocalStorage { s with todos := newTodos })
  else
    (deletedCount, { s with todos := newTodos })

/-- getStats: total, active and completed counts. -/
def getStats (s : TodoManager) : TodoStats :=
  { total := s.todos.length,
    active := (s.todos.filter (fun t => !t.completed)).length,
    completed := (s.todos.filter (fun t => t.completed)).length }

/-- setFilter: replaces the current filter selection. -/
def setFilter (f : FilterType) (s : TodoManager) : TodoManager :=
  { s with currentFilter := f }

/-- getCurrentFilter: reads the current filter selection. -/
def getCurrentFilter (s : TodoManager) : FilterType :=
  s.currentFilter

/-- clearAll: empties the list and always saves. -/
def clearAll (s : TodoManager) : TodoManager :=
  saveToLocalStorage { s with todos := [] }

/-- A manager freshly constructed in a session whose localStorage key is
absent: the constructor loads nothing, the filter defaults to all. -/
def emptyTodoManager : TodoManager :=
  { todos := [], currentFilter := .all, storage := none, writes := 0 }

/-! ## The load path (loadFromLocalStorage), modelled at the raw JSON
level because the source applies no shape validation to the parsed
record. -/

/-- Property access on a parsed JSON value: objects yield their field,
every other value yields undefined. -/
def JsValue.getField : JsValue → String → Option JsValue
  | .vobj fields, k => fields.lookup k
  | _, _ => none

/-- Millisecond value of the JavaScript expression new Date x, where x
is an absent field (none) or a JSON value.  none models an Invalid Date.
Arrays and objects are modelled as Invalid Date. -/
def jsDate : Option JsValue → Option Nat
  | none => none
  | some .vnull => some 0
  | some (.vbool b) => some (if b then 1 else 0)
  | some (.vnum n) => some n
  | some (.vstr s) => parseDateString s
  | some (.varr _) => none
  | some (.vobj _) => none

/-- A todo as reconstructed by the load path: the spread of an arbitrary
JSON element copies whatever id, text and completed fields exist (none
models undefined), and createdAt is overwritten with new Date of the
original createdAt field. -/
structure RawTodo where
  id : Option JsValue
  text : Option JsValue
  completed : Option JsValue
  createdAt : Option Nat

/-- One element of the parsed array, reconstructed by the map inside
loadFromLocalStorage. -/
def loadTodoRaw (v : JsValue) : RawTodo :=
  { id := v.getField "id", text := v.getField "text",
    completed := v.getField "completed",
    createdAt := jsDate (v.getField "createdAt") }

/-- Whether evaluating the map callback on this array element throws:
the property access on createdAt inside the callback raises a TypeError
exactly when the element is null (JSON knows no undefined; numbers,
strings and booleans are boxed, their missing fields read as undefined
without throwing, and arrays and objects have fields). -/
def throwsOnAccess : JsValue → Bool
  | .vnull => true
  | _ => false

/-- loadFromLocalStorage as a function of the stored record content:
an absent key loads nothing; a string JSON.parse rejects raises inside
the try block and is caught, leaving the list empty; a parsed non-array
makes the map call raise, again caught with the list still empty; a
parsed array whose elements include null makes the map callback throw
on the createdAt access, and the catch resets the list to empty; a
parsed array without null elements is mapped element by element with no
shape validation. -/
def loadFromLocalStorage : Option RecordContent → List RawTodo
  | none => []
  | some .malformedJson => []
  | some (.json (.varr es)) =>
      if es.any throwsOnAccess then [] else es.map loadTodoRaw
  | some (.json _) => []

/-- The raw view of a well-formed in-memory todo, for stating the
persistence round trip. -/
def Todo.toRaw (t : Todo) : RawTodo :=
  { id := some (.vstr t.id), text := some (.vstr t.text),
    completed := some (.vbool t.completed), createdAt := some t.createdAt }

/-! ## Operation sequences, for stating session-wide invariants -/

/-- One environment-resolved call to addTodo: the clock millisecond, the
random suffix and the text of the call. -/
structure CreateInput where
  now : Nat
  rand : String
  text : String

/-- A sequence of create calls, threaded through the manager state. -/
def runCreates (inputs : List CreateInput) (s : TodoManager) : TodoManager :=
  inputs.foldl (fun st i => (addTodo i.now i.rand i.text st).2) s

/-- Any call of the public mutating or filter interface, with the
environment inputs of a create resolved. -/
inductive Op where
  | createOp (now : Nat) (rand : String) (text : String)
  | toggleOp (id : String)
  | deleteOp (id : String)
  | clearCompletedOp
  | clearAllOp
  | setFilterOp (f : FilterType)

/-- Effect of one operation on the manager state. -/
def applyOp (s : TodoManager) : Op → TodoManager
  | .createOp now rand text => (addTodo now rand text s).2
  | .toggleOp id => (toggleTodo id s).2
  | .deleteOp id => (deleteTodo id s).2
  | .clearCompletedOp => (clearCompleted s).2
  | .clearAllOp => clearAll s
  | .setFilterOp f => setFilter f s

/-- Effect of a sequence of operations on the manager state. -/
def applyOps (ops : List Op) (s : TodoManager) : TodoManager :=
  ops.foldl applyOp s

/-! ## Helper lemmas -/

/-- The todo a successful addTodo builds. -/
def mkNewTodo (now : Nat) (rand : String) (text : String) : Todo :=
  { id := generateId now rand, text := jsTrim text,
    completed := false, createdAt := now }

theorem addTodo_cases (now : Nat) (rand : String) (text : String) (s : TodoManager) :
    (¬(1 ≤ (jsTrim text).length ∧ (jsTrim text).length ≤ 200) ∧
      addTodo now rand text s = (none, s)) ∨
    ((1 ≤ (jsTrim text).length ∧ (jsTrim text).length ≤ 200) ∧
      addTodo now rand text s =
        (some (mkNewTodo now rand text),
         saveToLocalStorage
           { s with todos := s.todos ++ [mkNewTodo now rand text] })) := by
  simp only [addTodo, mkNewTodo]
  split_ifs with h1 h2
  · exact Or.inl ⟨by omega, rfl⟩
  · exact Or.inl ⟨by omega, rfl⟩
  · exact Or.inr ⟨by omega, rfl⟩

theorem getStats_active_add_completed (s : TodoManager) :
    (getStats s).active + (getStats s).completed = (getStats s).total := by
  simp only [getStats]
  have h := List.length_eq_length_filter_add (l := s.todos) (fun t : Todo => t.completed)
  simp only [h]
  omega

/-! ## The claims -/

/-- C1: for every input string, addTodo returns a new task exactly when
the trimmed input has length between 1 and 200 inclusive; on success the
returned task (which is also the stored one) carries exactly the trimmed
text, its completed flag is false, and it is appended at the end of the
sequence.  On rejection the result is none; the function is total, so no
exception can occur. -/
theorem addTodo_create_spec (now : Nat) (rand : String) (text : String)
    (s : TodoManager) :
    ((addTodo now rand text s).1.isSome = true ↔
      1 ≤ (jsTrim text).length ∧ (jsTrim text).length ≤ 200) ∧
    (∀ t, (addTodo now rand text s).1 = some t →
      t.text = jsTrim text ∧ t.completed = false ∧
      (addTodo now rand text s).2.todos = s.todos ++ [t]) := by
  rcases addTodo_cases now rand text s with ⟨h, he⟩ | ⟨h, he⟩ <;> rw [he]
  · refine ⟨⟨fun hfalse => ?_, fun hb => absurd hb h⟩, fun t ht => ?_⟩
    · simp at hfalse
    · simp at ht
  · refine ⟨⟨fun _ => h, fun _ => by simp⟩, fun t ht => ?_⟩
    have hnt : mkNewTodo now rand text = t := by simpa using ht
    subst hnt
    exact ⟨rfl, rfl, rfl⟩

/-- C1 witness: a concrete accepted create — the input of the blank
padded text hi succeeds and the trimmed task is appended at the end. -/
theorem addTodo_create_spec_witness :
    (addTodo 5 "abc" " hi " emptyTodoManager).2.todos =
      emptyTodoManager.todos ++ [mkNewTodo 5 "abc" " hi "] :=
  ((addTodo_create_spec 5 "abc" " hi " emptyTodoManager).2
    (mkNewTodo 5 "abc" " hi ") (by decide)).2.2

/-- C4: when addTodo rejects its input (trimmed length 0 or above 200)
the whole state — task sequence, filter selection, stored record and
write count — is unchanged, and a persistence write happens exactly when
the create succeeds. -/
theorem addTodo_reject_frame (now : Nat) (rand : String) (text : String)
    (s : TodoManager) :
    ((addTodo now rand text s).1 = none → (addTodo now rand text s).2 = s) ∧
    ((addTodo now rand text s).2.writes = s.writes + 1 ↔
      (addTodo now rand text s).1.isSome = true) := by
  rcases addTodo_cases now rand text s with ⟨h, he⟩ | ⟨h, he⟩ <;> rw [he]
  · refine ⟨fun _ => rfl, ⟨fun hw => ?_, fun hs => ?_⟩⟩
    · simp at hw
    · simp at hs
  · refine ⟨fun hnone => by simp at hnone, ?_⟩
    simp [saveToLocalStorage]

/-- C4 witness: the concrete rejected create of an all-blank input
leaves the fresh manager untouched, with no write performed. -/
theorem addTodo_reject_frame_witness :
    (addTodo 5 "abc" "   " emptyTodoManager).2 = emptyTodoManager :=
  (addTodo_reject_frame 5 "abc" "   " emptyTodoManager).1 (by decide)

/-- C3: after every sequence of create, toggle, delete, clear and filter
operations started from a fresh store, the stats satisfy active +
completed = total, and the zero-task store yields all zero counts. -/
theorem getStats_invariant (ops : List Op) :
    (getStats (applyOps ops emptyTodoManager)).active +
        (getStats (applyOps ops emptyTodoManager)).completed =
      (getStats (applyOps ops emptyTodoManager)).total ∧
    getStats emptyTodoManager = ⟨0, 0, 0⟩ :=
  ⟨getStats_active_add_completed _, rfl⟩

theorem toggleFirst_not_found (id : String) (l : List Todo)
    (h : ∀ t ∈ l, t.id ≠ id) : toggleFirst id l = (l, false) := by
  induction l with
  | nil => rfl
  | cons t ts ih =>
    simp only [toggleFirst]
    rw [if_neg (h t (List.mem_cons_self t ts)),
        ih (fun x hx => h x (List.mem_cons_of_mem t hx))]

/-- A concrete two-task manager used to instantiate the universally
quantified theorems at explicit inputs. -/
def demoManager : TodoManager :=
  { todos := [{ id := "a", text := "x", completed := false, createdAt := 0 },
              { id := "b", text := "y", completed := true, createdAt := 1 }],
    currentFilter := .all, storage := none, writes := 0 }

/-- C7: deleting or toggling an id that is not present returns false,
leaves the task sequence (indeed the whole state, stored record and
write count included) unchanged and performs no persistence write. -/
theorem delete_toggle_unknown_noop (id : String) (s : TodoManager)
    (h : ∀ t ∈ s.todos, t.id ≠ id) :
    deleteTodo id s = (false, s) ∧ toggleTodo id s = (false, s) := by
  have hfil : s.todos.filter (fun todo => todo.id ≠ id) = s.todos :=
    List.filter_eq_self.mpr (fun a ha => by simpa using h a ha)
  constructor
  · simp only [deleteTodo, hfil]
    rw [if_neg (lt_irrefl _)]
  · simp only [toggleTodo, toggleFirst_not_found id s.todos h]
    rfl

/-- C7 witness: a concrete unknown id on a concrete two-task manager. -/
theorem delete_toggle_unknown_noop_witness :
    (∀ t ∈ demoManager.todos, t.id ≠ "zzz") ∧
    deleteTodo "zzz" demoManager = (false, demoManager) :=
  ⟨by decide, (delete_toggle_unknown_noop "zzz" demoManager (by decide)).1⟩

/-- C8: clearCompleted removes exactly the completed tasks, keeping the
others in relative order (the remaining sequence is the filter of the
non-completed ones); it returns the number removed; when that number is
positive exactly one persistence write happens, and when it is zero the
whole state — the stored record byte for byte included — is unchanged. -/
theorem clearCompleted_spec (s : TodoManager) :
    (clearCompleted s).2.todos = s.todos.filter (fun todo => !todo.completed) ∧
    (clearCompleted s).1 = (s.todos.filter (fun todo => todo.completed)).length ∧
    (0 < (clearCompleted s).1 → (clearCompleted s).2.writes = s.writes + 1) ∧
    ((clearCompleted s).1 = 0 → (clearCompleted s).2 = s) := by
  have hlen : s.todos.length =
      (s.todos.filter (fun todo => todo.completed)).length +
        (s.todos.filter (fun todo => !todo.completed)).length := by
    simpa using List.length_eq_length_filter_add
      (l := s.todos) (fun todo : Todo => todo.completed)
  simp only [clearCompleted]
  split_ifs with h
  · exact ⟨rfl, by omega, fun _ => rfl, fun h0 => absurd h0 (by omega)⟩
  · have hfle := (List.filter_sublist
      (l := s.todos) (p := fun todo => !todo.completed)).length_le
    have heq : s.todos.filter (fun todo => !todo.completed) = s.todos :=
      (List.filter_sublist _).eq_of_length (by omega)
    refine ⟨rfl, by omega, fun hpos => absurd hpos (by omega), fun _ => ?_⟩
    rw [heq]

/-- C8 witness: on a store with zero completed tasks the call returns 0
and the state, stored record included, is untouched. -/
theorem clearCompleted_spec_witness :
    (clearCompleted emptyTodoManager).1 = 0 ∧
    (clearCompleted emptyTodoManager).2 = emptyTodoManager :=
  ⟨by decide, (clearCompleted_spec emptyTodoManager).2.2.2 (by decide)⟩

/-- C9: the active and completed views partition the all view: a task of
the all view belongs to exactly one of the two according to its
completed flag, and both preserve the relative order of the all view —
they are sublists of it. -/
theorem getTodos_partition (s : TodoManager) :
    (∀ t, t ∈ getTodos (some .all) s ↔
      (t ∈ getTodos (some .active) s ∨ t ∈ getTodos (some .completed) s)) ∧
    (∀ t, t ∈ getTodos (some .active) s → t.completed = false) ∧
    (∀ t, t ∈ getTodos (some .completed) s → t.completed = true) ∧
    (∀ t, ¬(t ∈ getTodos (some .active) s ∧ t ∈ getTodos (some .completed) s)) ∧
    (getTodos (some .active) s).Sublist (getTodos (some .all) s) ∧
    (getTodos (some .completed) s).Sublist (getTodos (some .all) s) := by
  simp only [getTodos, Option.getD_some]
  refine ⟨fun t => ?_, fun t ht => ?_, fun t ht => ?_, fun t hc => ?_,
    List.filter_sublist _, List.filter_sublist _⟩
  · simp only [List.mem_filter]
    cases hc : t.completed <;> simp [hc]
  · simpa using (List.mem_filter.mp ht).2
  · simpa using (List.mem_filter.mp ht).2
  · obtain ⟨h1, h2⟩ := hc
    have ha := (List.mem_filter.mp h1).2
    have hb := (List.mem_filter.mp h2).2
    simp at ha hb
    rw [ha] at hb
    exact Bool.false_ne_true hb

/-- C9 witness: the concrete active task of the two-task manager is in
the all view, hence in one of the two partition classes. -/
theorem getTodos_partition_witness :
    ({ id := "a", text := "x", completed := false, createdAt := 0 } : Todo) ∈
        getTodos (some .active) demoManager ∨
    ({ id := "a", text := "x", completed := false, createdAt := 0 } : Todo) ∈
        getTodos (some .completed) demoManager :=
  ((getTodos_partition demoManager).1 _).mp (by decide)

theorem toggleFirst_found (id : String) (l : List Todo)
    (h : id ∈ l.map Todo.id) :
    (toggleFirst id l).2 = true ∧
    ∃ i : Fin l.length, (l.get i).id = id ∧
      (toggleFirst id l).1 =
        l.set i { l.get i with completed := !(l.get i).completed } := by
  induction l with
  | nil => simp at h
  | cons t ts ih =>
    by_cases ht : t.id = id
    · refine ⟨by simp [toggleFirst, ht], ⟨0, Nat.succ_pos _⟩, ht, ?_⟩
      simp [toggleFirst, ht]
    · simp only [List.map_cons] at h
      have hts : id ∈ ts.map Todo.id := by
        rcases List.mem_cons.mp h with h1 | h1
        · exact absurd h1.symm ht
        · exact h1
      obtain ⟨h2, i, hid, hset⟩ := ih hts
      refine ⟨?_, ⟨i.1 + 1, Nat.succ_lt_succ i.isLt⟩, ?_, ?_⟩
      · simp only [toggleFirst]
        rw [if_neg ht]
        exact h2
      · exact hid
      · simp only [toggleFirst]
        rw [if_neg ht]
        show t :: (toggleFirst id ts).1 = t :: ts.set i.1 _
        rw [hset]
        rfl

/-- C10: toggling an id that is present returns true and changes only
the completed flag of the first matching task: the matching task keeps
its id, text and createdAt (only the flag of the stored entry flips),
the sequence keeps its length and order, every other position is
unchanged, and the current filter selection is untouched. -/
theorem toggleTodo_frame (id : String) (s : TodoManager)
    (h : id ∈ s.todos.map Todo.id) :
    (toggleTodo id s).1 = true ∧
    (toggleTodo id s).2.currentFilter = s.currentFilter ∧
    (toggleTodo id s).2.todos.length = s.todos.length ∧
    ∃ i : Fin s.todos.length, (s.todos.get i).id = id ∧
      (toggleTodo id s).2.todos =
        s.todos.set i
          { s.todos.get i with completed := !(s.todos.get i).completed } ∧
      ∀ j, j ≠ (i : Nat) → (toggleTodo id s).2.todos[j]? = s.todos[j]? := by
  obtain ⟨h2, i, hid, hset⟩ := toggleFirst_found id s.todos h
  have htog : toggleTodo id s =
      (true, saveToLocalStorage { s with todos := (toggleFirst id s.todos).1 }) := by
    simp only [toggleTodo, h2, if_true]
  rw [htog]
  refine ⟨rfl, rfl, ?_, i, hid, ?_, fun j hj => ?_⟩
  · show (toggleFirst id s.todos).1.length = s.todos.length
    rw [hset, List.length_set]
  · exact hset
  · show (toggleFirst id s.todos).1[j]? = s.todos[j]?
    rw [hset]
    exact List.getElem?_set_ne (Ne.symm hj)

/-- C10 witness: toggling the concrete present id a succeeds. -/
theorem toggleTodo_frame_witness :
    "a" ∈ demoManager.todos.map Todo.id ∧
    (toggleTodo "a" demoManager).1 = true :=
  ⟨by decide, (toggleTodo_frame "a" demoManager (by decide)).1⟩

/-- C5: persistence round trip — loading the record written by a save
reproduces the same sequence of tasks, with the same id, text and
completed flag, and a createdAt equal to the original to timestamp
precision, restored as a true date value (a timestamp, not a string). -/
theorem persistence_roundtrip (s : TodoManager) :
    loadFromLocalStorage (saveToLocalStorage s).storage =
      s.todos.map Todo.toRaw := by
  show loadFromLocalStorage (some (.json (.varr (s.todos.map encodeTodo)))) = _
  have hnoth : (s.todos.map encodeTodo).any throwsOnAccess = false := by
    induction s.todos with
    | nil => rfl
    | cons t ts ih => simp [throwsOnAccess, encodeTodo, ih]
  simp only [loadFromLocalStorage, hnoth, Bool.false_eq_true, if_false,
    List.map_map]
  refine List.map_congr_left (fun t _ => ?_)
  show loadTodoRaw (encodeTodo t) = t.toRaw
  have hfields : loadTodoRaw (encodeTodo t) =
      { id := some (.vstr t.id), text := some (.vstr t.text),
        completed := some (.vbool t.completed),
        createdAt := parseDateString (natToString t.createdAt) } := rfl
  rw [hfields, parseDateString_natToString]
  rfl

/-- Modelled from the spec: the expected shape of one element of the
persisted record of section 6 — an object with a string id, a string
text, a boolean completed and a createdAt string parseable back into a
date value. -/
def isExpectedElement (v : JsValue) : Bool :=
  (match v.getField "id" with | some (.vstr _) => true | _ => false) &&
  (match v.getField "text" with | some (.vstr _) => true | _ => false) &&
  (match v.getField "completed" with | some (.vbool _) => true | _ => false) &&
  (match v.getField "createdAt" with
   | some (.vstr d) => (parseDateString d).isSome
   | _ => false)

/-- Modelled from the spec: the expected shape of the whole persisted
record — an ordered list of elements of the expected shape. -/
def isExpectedRecordShape : JsValue → Bool
  | .varr es => es.all isExpectedElement
  | _ => false

/-- C6 counterexample: the stored record parses to the JSON array with
the single element 1, which is not of the expected record shape, yet the
newly constructed store is not empty — the load keeps one malformed
entry per array element instead of degrading to the empty sequence. -/
theorem load_wrong_shape_not_empty_cex :
    isExpectedRecordShape (.varr [.vnum 1]) = false ∧
    loadFromLocalStorage (some (.json (.varr [.vnum 1]))) ≠ [] :=
  ⟨rfl, fun h => absurd (congrArg List.length h) (by decide)⟩

theorem any_throwsOnAccess_iff (es : List JsValue) :
    es.any throwsOnAccess = true ↔ JsValue.vnull ∈ es := by
  induction es with
  | nil => simp
  | cons e rest ih => cases e <;> simp [throwsOnAccess, ih]

/-- C6 (amended): constructing a store never lets an exception escape
(the load is a total function); an absent record, a record JSON.parse
rejects, a record parsing to a non-array, and also a record parsing to
an array containing a null element (the createdAt access of the map
callback throws and the catch resets the list) all make the store start
empty; but a record parsing to a JSON array without null elements
yields one (possibly malformed, unvalidated) entry per array element
rather than the empty store. -/
theorem loadFromLocalStorage_spec (content : Option RecordContent) :
    (content = none → loadFromLocalStorage content = []) ∧
    (content = some .malformedJson → loadFromLocalStorage content = []) ∧
    (∀ v, content = some (.json v) →
      ((∀ es, v ≠ .varr es) → loadFromLocalStorage content = []) ∧
      (∀ es, v = .varr es →
        (JsValue.vnull ∈ es → loadFromLocalStorage content = []) ∧
        (JsValue.vnull ∉ es →
          (loadFromLocalStorage content).length = es.length))) := by
  refine ⟨fun h => ?_, fun h => ?_,
    fun v hv => ⟨fun hna => ?_, fun es hes => ⟨fun hnull => ?_, fun hnonull => ?_⟩⟩⟩
  · subst h
    rfl
  · subst h
    rfl
  · subst hv
    cases v with
    | varr es => exact absurd rfl (hna es)
    | vnull => rfl
    | vbool b => rfl
    | vnum n => rfl
    | vstr s => rfl
    | vobj fields => rfl
  · subst hv
    subst hes
    simp only [loadFromLocalStorage]
    rw [if_pos ((any_throwsOnAccess_iff es).mpr hnull)]
  · subst hv
    subst hes
    simp only [loadFromLocalStorage]
    rw [if_neg (fun hc => hnonull ((any_throwsOnAccess_iff es).mp hc)),
      List.length_map]

/-- C6 witness: the absent record yields the empty store. -/
theorem loadFromLocalStorage_spec_witness :
    loadFromLocalStorage none = [] :=
  (loadFromLocalStorage_spec none).1 rfl

theorem dash_not_mem_natToDigits (n : Nat) : '-' ∉ natToDigits n := by
  intro hmem
  have hd := natToDigits_all_digit n _ hmem
  exact absurd hd (by decide)

theorem append_dash_inj : ∀ (a b c d : List Char),
    '-' ∉ a → '-' ∉ c → a ++ '-' :: b = c ++ '-' :: d → a = c ∧ b = d := by
  intro a
  induction a with
  | nil =>
    intro b c d _ hc h
    cases c with
    | nil => simpa using h
    | cons x xs =>
      simp only [List.nil_append, List.cons_append, List.cons.injEq] at h
      apply absurd _ hc
      rw [h.1]
      exact List.mem_cons_self x xs
  | cons y ys ih =>
    intro b c d ha hc h
    cases c with
    | nil =>
      simp only [List.cons_append, List.nil_append, List.cons.injEq] at h
      apply absurd _ ha
      rw [← h.1]
      exact List.mem_cons_self y ys
    | cons x xs =>
      simp only [List.cons_append, List.cons.injEq] at h
      have ha2 : '-' ∉ ys := fun hm => ha (List.mem_cons_of_mem y hm)
      have hc2 : '-' ∉ xs := fun hm => hc (List.mem_cons_of_mem x hm)
      obtain ⟨hyx, hrest⟩ := ih b xs d ha2 hc2 h.2
      exact ⟨by rw [h.1, hyx], hrest⟩

theorem generateId_inj {n1 n2 : Nat} {r1 r2 : String}
    (h : generateId n1 r1 = generateId n2 r2) : n1 = n2 ∧ r1 = r2 := by
  have hdata := congrArg String.data h
  simp only [generateId, String.data_append, natToString_data] at hdata
  simp only [List.append_assoc, List.cons_append, List.nil_append] at hdata
  have hsplit := append_dash_inj (natToDigits n1) r1.data (natToDigits n2) r2.data
    (dash_not_mem_natToDigits n1) (dash_not_mem_natToDigits n2) hdata
  exact ⟨natToDigits_inj hsplit.1, String.ext hsplit.2⟩

theorem addTodo_todos_cases (now : Nat) (rand : String) (text : String)
    (s : TodoManager) :
    (addTodo now rand text s).2.todos = s.todos ∨
    (addTodo now rand text s).2.todos = s.todos ++ [mkNewTodo now rand text] := by
  rcases addTodo_cases now rand text s with ⟨_, he⟩ | ⟨_, he⟩ <;> rw [he]
  · exact Or.inl rfl
  · exact Or.inr rfl

theorem runCreates_ids_sublist (inputs : List CreateInput) (s : TodoManager) :
    ((runCreates inputs s).todos.map Todo.id).Sublist
      (s.todos.map Todo.id ++ inputs.map (fun i => generateId i.now i.rand)) := by
  induction inputs generalizing s with
  | nil => simp [runCreates]
  | cons i is ih =>
    have hrun : runCreates (i :: is) s =
        runCreates is (addTodo i.now i.rand i.text s).2 := rfl
    rw [hrun]
    simp only [List.map_cons]
    rcases addTodo_todos_cases i.now i.rand i.text s with hcase | hcase
    · have h1 := ih ((addTodo i.now i.rand i.text s).2)
      rw [hcase] at h1
      refine h1.trans ?_
      exact List.Sublist.append_left (List.sublist_cons_self _ _) _
    · have h1 := ih ((addTodo i.now i.rand i.text s).2)
      rw [hcase] at h1
      simp only [List.map_append, List.map_cons, List.map_nil, mkNewTodo,
        List.append_assoc, List.cons_append, List.nil_append] at h1
      exact h1

/-- C2 counterexample: two creates in the same millisecond for which the
environment draws the same random suffix store two tasks with identical
ids, so the generator does not guarantee uniqueness for every execution
within a session. -/
theorem duplicate_id_cex :
    ¬ ((runCreates [⟨5, "abc", "a"⟩, ⟨5, "abc", "b"⟩]
        emptyTodoManager).todos.map Todo.id).Nodup := by
  decide

/-- C2 (amended): the id generator is injective in the pair of the clock
millisecond and the random suffix, so in every session in which no two
creates obtain both the same millisecond and the same random suffix —
in particular whenever the random draws within one millisecond differ —
all tasks ever created carry pairwise distinct ids. -/
theorem runCreates_ids_nodup (inputs : List CreateInput)
    (h : (inputs.map (fun i => (i.now, i.rand))).Nodup) :
    ((runCreates inputs emptyTodoManager).todos.map Todo.id).Nodup := by
  have hsub := runCreates_ids_sublist inputs emptyTodoManager
  simp only [emptyTodoManager, List.map_nil, List.nil_append] at hsub
  have hinj : Function.Injective (fun p : Nat × String => generateId p.1 p.2) := by
    intro p q hpq
    obtain ⟨pa, pb⟩ := p
    obtain ⟨qa, qb⟩ := q
    obtain ⟨h1, h2⟩ := generateId_inj hpq
    exact Prod.ext h1 h2
  have hnd : (inputs.map (fun i => generateId i.now i.rand)).Nodup := by
    have hmapped := List.Nodup.map hinj h
    rw [List.map_map] at hmapped
    exact hmapped
  exact List.Nodup.sublist hsub hnd

/-- C2 witness: two same-millisecond creates with distinct random
suffixes produce pairwise distinct stored ids. -/
theorem runCreates_ids_nodup_witness :
    (([⟨5, "aaa", "x"⟩, ⟨5, "bbb", "y"⟩] : List CreateInput).map
        (fun i => (i.now, i.rand))).Nodup ∧
    ((runCreates [⟨5, "aaa", "x"⟩, ⟨5, "bbb", "y"⟩]
        emptyTodoManager).todos.map Todo.id).Nodup :=
  ⟨by decide, runCreates_ids_nodup _ (by decide)⟩

end TodoApp
